import Mathlib

/-!
# Verification of the go-wiki-tutorial server (src/wiki.go)

Shallow embedding of the wiki program. The filesystem is modelled as a map
from filenames to optional contents (a page body is a byte sequence; we model
it as a Lean `String`, i.e. a sequence of characters, which is faithful for
every property stated here). HTTP responses are modelled with Go's
`net/http` ResponseWriter semantics: the first `WriteHeader` wins (a later
superfluous `WriteHeader` is ignored), headers are snapshotted when the
header is written, and body writes append.
-/

namespace Wiki

/-- The character class `[a-zA-Z0-9]` used by both `validPath` and
`interPageLink` in wiki.go. -/
def isAlnumGo (c : Char) : Bool :=
  ('a' ≤ c && c ≤ 'z') || ('A' ≤ c && c ≤ 'Z') || ('0' ≤ c && c ≤ '9')

/-! ## Filesystem model -/

/-- The flat filesystem: filename → contents (`none` = file absent). -/
def Files := String → Option String

/-- Filesystem state together with the OS-level environment bit recording
which filenames cannot be removed (e.g. a non-writable directory), so that
`os.Remove` can fail for a reason other than absence. -/
structure Store where
  files : Files
  removeDenied : String → Bool

/-- Models `ioutil.WriteFile`: create or overwrite `filename` with `contents`. -/
def writeFile (fs : Files) (filename contents : String) : Files :=
  fun f => if f = filename then some contents else fs f

/-- Models `os.Remove`: error if the file is absent ("no such file or directory")
or if removal is denied by the OS; otherwise the file is gone. -/
def osRemove (fs : Store) (name : String) : Except String Store :=
  match fs.files name with
  | none => .error ("remove " ++ name ++ ": no such file or directory")
  | some _ =>
    if fs.removeDenied name then
      .error ("remove " ++ name ++ ": permission denied")
    else
      .ok { fs with files := fun f => if f = name then none else fs.files f }

/-! ## Page and the page store (wiki.go lines 18–46) -/

/-- Structure `Page` from wiki.go. `template.HTML` is a string type; `Body` is the raw
byte sequence, modelled as a `String`. Defaults mirror Go zero values, so
`&Page{Title: title}` is `{ Title := title }`. -/
structure Page where
  Title : String
  Body : String
  DispBody : String := ""
  FromSave : Bool := false
  FromDelete : Bool := false

/-- Method `Page.save`: writes `p.Body` verbatim to `data/<Title>.txt`
(`ioutil.WriteFile(filename, p.Body, 0600)`). -/
def Page.save (p : Page) (fs : Files) : Files :=
  writeFile fs ("data/" ++ p.Title ++ ".txt") p.Body

/-- The anchor produced for one `interPageLink` match, after the brackets are
stripped: `fmt.Sprintf("<a href=\"/view/%s\">%s</a>", name, name)`. -/
def anchorChars (name : List Char) : List Char :=
  "<a href=\x22/view/".data ++ name ++ "\x22>".data ++ name ++ "</a>".data

/-- Models `interPageLink.ReplaceAllFunc` on the body: replace every
non-overlapping leftmost match of `\[([a-zA-Z0-9]*)\]` by its anchor. A `[`
opens a match only when the maximal alphanumeric run after it is closed by
`]` (the regex cannot match otherwise, since `[a-zA-Z0-9]*` is followed by a
mandatory `\]` and no alphanumeric character is `]`). -/
def expandLinksAux : List Char → List Char
  | [] => []
  | c :: rest =>
    if c = '[' then
      match h : rest.dropWhile isAlnumGo with
      | ']' :: tail => anchorChars (rest.takeWhile isAlnumGo) ++ expandLinksAux tail
      | [] => c :: expandLinksAux rest
      | _ :: _ => c :: expandLinksAux rest
    else
      c :: expandLinksAux rest
termination_by cs => cs.length
decreasing_by
  · have h1 : (rest.dropWhile isAlnumGo).length ≤ rest.length :=
      (List.dropWhile_suffix isAlnumGo).length_le
    rw [h] at h1
    simp at h1 ⊢
    omega
  all_goals simp

/-- String-level wrapper for link expansion. -/
def expandLinks (s : String) : String := ⟨expandLinksAux s.data⟩

/-- Function `loadPage`: read `data/<title>.txt`; on failure return the error (the
page file is absent); on success build the Page with `DispBody` the
link-expanded body. -/
def loadPage (fs : Files) (title : String) : Option Page :=
  match fs ("data/" ++ title ++ ".txt") with
  | none => none
  | some body => some { Title := title, Body := body, DispBody := expandLinks body }

/-! ## HTTP request/response model -/

/-- An HTTP request: method string, URL path, parsed query parameters and
parsed form values. `FormValue`/`Query().Get` return the first value for the
key, or `""` when absent. -/
structure Request where
  method : String
  path : String
  query : List (String × String)
  form : List (String × String)

/-- First value for a key in a `url.Values`-style list, `""` if absent. -/
def getValue (kvs : List (String × String)) (k : String) : String :=
  match kvs.find? (fun kv => kv.1 = k) with
  | some kv => kv.2
  | none => ""

/-- The observable state of a `ResponseWriter`. `status` and `sentLocation`
are the values actually sent (snapshotted at the first `WriteHeader`);
`hdrLocation`/`hdrCT` model the in-memory header map, whose mutation after
the header went out is not observable on the wire. -/
structure RW where
  wroteHeader : Bool := false
  status : Nat := 200
  sentLocation : Option String := none
  hdrLocation : Option String := none
  hdrCT : Bool := false
  body : String := ""

/-- A fresh writer, as each request starts with. -/
def w0 : RW := {}

/-- Models `WriteHeader`: the first call sends the status and snapshots the header
map; any further call is superfluous and ignored. -/
def writeHeader (w : RW) (code : Nat) : RW :=
  if w.wroteHeader then w
  else { w with wroteHeader := true, status := code, sentLocation := w.hdrLocation }

/-- Models `Write`: an implicit `WriteHeader(200)` if none was sent yet, then the
bytes are appended to the body. -/
def writeBody (w : RW) (s : String) : RW :=
  let w2 := writeHeader w 200
  { w2 with body := w2.body ++ s }

/-- Models `http.Error(w, msg, code)`: sets the Content-Type header, writes the
status code and the message followed by a newline. -/
def httpError (w : RW) (msg : String) (code : Nat) : RW :=
  writeBody (writeHeader { w with hdrCT := true } code) (msg ++ "\n")

/-- Models `http.StatusText` for the codes this program uses for redirects. -/
def statusText (code : Nat) : String :=
  if code = 301 then "Moved Permanently"
  else if code = 302 then "Found"
  else if code = 307 then "Temporary Redirect"
  else ""

/-- Models `htmlEscape` as used by `http.Redirect` on the body note. -/
def htmlEscapeChar (c : Char) : List Char :=
  if c = '&' then "&amp;".data
  else if c = '<' then "&lt;".data
  else if c = '>' then "&gt;".data
  else if c = '\x22' then "&#34;".data
  else if c = '\x27' then "&#39;".data
  else [c]

/-- html-escape a string. -/
def htmlEscape (s : String) : String :=
  ⟨s.data.foldr (fun c acc => htmlEscapeChar c ++ acc) []⟩

/-- Models `http.Redirect(w, r, url, code)`: set the Location header (visible only
if the header has not gone out yet), write the status, and for a GET request
with no prior Content-Type write a small HTML note body. Escaping of
non-ASCII Location bytes is omitted: every url this app redirects to is
ASCII. -/
def httpRedirect (w : RW) (r : Request) (url : String) (code : Nat) : RW :=
  let hadCT := w.hdrCT
  let w1 : RW := { w with hdrLocation := some url,
                          hdrCT := hadCT || r.method = "GET" }
  let w2 := writeHeader w1 code
  if !hadCT && r.method = "GET" then
    writeBody w2 ("<a href=\x22" ++ htmlEscape url ++ "\x22>" ++ statusText code ++ "</a>.\n" ++ "\n")
  else
    w2

/-- Models `http.NotFound(w, r)` = `Error(w, "404 page not found", 404)`. -/
def httpNotFound (w : RW) (_r : Request) : RW :=
  httpError w "404 page not found" 404

/-! ## Templates

The template files `tmpl/edit.html` and `tmpl/view.html` are not part of
src/. Template execution is modelled as a total rendering function (its
failure branch, a 500, is exercised by no claim). -/

/-- Modelled from the spec: the external template resources `edit` and
`view` render an HTML view from the Page's fields (the view template shows
the expanded body and the banner flags, the edit template the raw body). -/
def templateOutput (tmpl : String) (p : Page) : String :=
  "<!--" ++ tmpl ++ "-->" ++ p.Title ++ "|" ++
    (if tmpl = "view" then p.DispBody else p.Body) ++ "|" ++
    (if p.FromSave then "saved" else "") ++ (if p.FromDelete then "deleted" else "")

/-- Function `renderTemplate`: execute the named template with the Page into the
writer. -/
def renderTemplate (w : RW) (tmpl : String) (p : Page) : RW :=
  writeBody w (templateOutput tmpl p)

/-! ## Handlers (wiki.go lines 57–148) -/

/-- Handler `viewHandler`: load the page; absent → 302 redirect to `/edit/<title>`;
otherwise set the transient banner flags from the query and render the view
template. -/
def viewHandler (w : RW) (r : Request) (fs : Store) (title : String) : RW × Store :=
  match loadPage fs.files title with
  | none => (httpRedirect w r ("/edit/" ++ title) 302, fs)
  | some p =>
    let p := if getValue r.query "from_save" = "true" then { p with FromSave := true } else p
    let p := if getValue r.query "from_delete" = "true" then { p with FromDelete := true } else p
    (renderTemplate w "view" p, fs)

/-- Handler `editHandler`: load the page, falling back to an empty Page with only
the title set, and render the edit template. -/
def editHandler (w : RW) (r : Request) (fs : Store) (title : String) : RW × Store :=
  let p := match loadPage fs.files title with
    | none => { Title := title, Body := "" : Page }
    | some p => p
  (renderTemplate w "edit" p, fs)

/-- Handler `saveHandler`: non-POST → 400 without touching storage; otherwise save
the submitted `body` form field under the title and 302 redirect to
`/view/<title>?from_save=true` (the in-model write cannot fail, so the 500
branch of wiki.go is not taken). -/
def saveHandler (w : RW) (r : Request) (fs : Store) (title : String) : RW × Store :=
  if r.method ≠ "POST" then
    (httpError w "400 - Bad method type" 400, fs)
  else
    let body := getValue r.form "body"
    let pg : Page := { Title := title, Body := body }
    let files2 := pg.save fs.files
    (httpRedirect w r ("/view/" ++ title ++ "?from_save=true") 302, { fs with files := files2 })

/-- Handler `deleteHandler`: non-POST → 400; page absent → 404; otherwise remove the
file. NOTE (faithful to the source): the removal-failure branch calls
`http.Error(..., 500)` but does not return, so `http.Redirect` is still
executed afterwards — its header write is superfluous and ignored. -/
def deleteHandler (w : RW) (r : Request) (fs : Store) (title : String) : RW × Store :=
  if r.method ≠ "POST" then
    (httpError w "400 - Bad method type" 400, fs)
  else
    match loadPage fs.files title with
    | none => (httpError w "404 - Page not found" 404, fs)
    | some _ =>
      match osRemove fs ("data/" ++ title ++ ".txt") with
      | .error e =>
        let w := httpError w e 500
        (httpRedirect w r "/view/FrontPage?from_delete=true" 302, fs)
      | .ok fs2 =>
        (httpRedirect w r "/view/FrontPage?from_delete=true" 302, fs2)

/-! ## Routing (wiki.go lines 15, 130–158) -/

/-- Nonempty and all alphanumeric: the `([a-zA-Z0-9]+)` capture group. -/
def titleOk (t : List Char) : Bool :=
  !t.isEmpty && t.all isAlnumGo

/-- One alternative of the route regex: if the path starts with
`/<op>/`, return what follows. -/
def stripSlashOp (op : String) (cs : List Char) : Option (List Char) :=
  if ("/" ++ op ++ "/").data.isPrefixOf cs then
    some (cs.drop ("/" ++ op ++ "/").data.length)
  else
    none

/-- The capture for one alternative: the whole path must be `/<op>/` then a
nonempty alphanumeric title (the regex is anchored on both sides). Returns
the regex's two capture groups. -/
def routeCapture (op : String) (path : String) : Option (String × String) :=
  match stripSlashOp op path.data with
  | some t => if titleOk t then some (op, ⟨t⟩) else none
  | none => none

/-- Models `validPath.FindStringSubmatch` on the path, for the anchored regex
`^/(edit|save|view|delete)/([a-zA-Z0-9]+)$`: the alternation tries the four
operation words (whose `/<op>/` prefixes are mutually exclusive, so the
order is immaterial). -/
def validPathMatch (path : String) : Option (String × String) :=
  (routeCapture "edit" path).orElse fun _ =>
    (routeCapture "save" path).orElse fun _ =>
      (routeCapture "view" path).orElse fun _ =>
        routeCapture "delete" path

/-- The type of the title-taking handlers. -/
def Handler := RW → Request → Store → String → RW × Store

/-- Wrapper `makeHandler`: match the path against `validPath`; no match → 404,
otherwise call the wrapped handler with the captured title (`m[2]`). -/
def makeHandler (fn : Handler) (w : RW) (r : Request) (fs : Store) : RW × Store :=
  match validPathMatch r.path with
  | none => (httpNotFound w r, fs)
  | some m => fn w r fs m.2

/-- Handler `redirFrontPage`: 307 redirect of any request to `/view/FrontPage`. -/
def redirFrontPage (w : RW) (r : Request) : RW :=
  httpRedirect w r "/view/FrontPage" 307

/-- Models `strings.HasPrefix`, on which `ServeMux` subtree matching rests. -/
def hasPrefixGo (s pre : String) : Bool := pre.data.isPrefixOf s.data

/-- Segment processing of `path.Clean` on a rooted path: empty segments
(from doubled slashes) and `.` segments are dropped, `..` pops the last kept
segment (and at the root pops nothing, since the path is rooted), any other
segment is kept. -/
def cleanSegs (segs : List (List Char)) : List (List Char) :=
  segs.foldl
    (fun st seg =>
      if seg = [] then st
      else if seg = ['.'] then st
      else if seg = ['.', '.'] then st.dropLast
      else st ++ [seg])
    []

/-- The path made rooted, as `net/http`'s `cleanPath` does before calling
`path.Clean` (`if p[0] != '/' { p = "/" + p }`). -/
def rootedData (p : String) : List Char :=
  if p.data.head? = some '/' then p.data else '/' :: p.data

/-- Result of `path.Clean` on a rooted path: a slash followed by the kept
segments joined with slashes (just `/` when none are kept). -/
def cleanCore (cs : List Char) : List Char :=
  '/' :: List.intercalate ['/'] (cleanSegs ((cs.drop 1).splitOn '/'))

/-- Models `net/http`'s `cleanPath`: the empty path becomes `/`; otherwise
the path is rooted, `path.Clean` eliminates empty, `.` and `..` elements,
and a trailing slash that `Clean` removed is restored (unless the result is
the root itself). -/
def cleanPath (p : String) : String :=
  if p = "" then "/"
  else if (rootedData p).getLast? = some '/' ∧ cleanCore (rootedData p) ≠ ['/'] then
    ⟨cleanCore (rootedData p) ++ ['/']⟩
  else
    ⟨cleanCore (rootedData p)⟩

/-- Pattern matching of `mux.handler` over the five registered patterns
`/view/`, `/edit/`, `/save/`, `/delete/` and `/`: the longest pattern
matching the path wins (a pattern ending in `/` matches the whole subtree
under it, via `strings.HasPrefix`); the four subtree prefixes are mutually
exclusive, so the order among them is immaterial; a path not even rooted
matches no pattern at all and gets `NotFoundHandler`. -/
def muxDispatch (w : RW) (r : Request) (fs : Store) : RW × Store :=
  if hasPrefixGo r.path "/view/" then makeHandler viewHandler w r fs
  else if hasPrefixGo r.path "/edit/" then makeHandler editHandler w r fs
  else if hasPrefixGo r.path "/save/" then makeHandler saveHandler w r fs
  else if hasPrefixGo r.path "/delete/" then makeHandler deleteHandler w r fs
  else if hasPrefixGo r.path "/" then (redirFrontPage w r, fs)
  else (httpNotFound w r, fs)

/-- The `http.ServeMux` built in `main`, following `ServeMux.Handler`: a
CONNECT request is not canonicalised — only the trailing-slash redirect for
a bare `/view`, `/edit`, `/save` or `/delete` applies before pattern
matching; any other request first has its path cleaned, then (in this
order) a cleaned path equal to a subtree pattern minus its trailing slash
gets the mux's 301 redirect adding the slash, a path the cleaning changed
gets a 301 redirect to the cleaned path, and otherwise the patterns are
matched on the (canonical) path. -/
def serveMux (w : RW) (r : Request) (fs : Store) : RW × Store :=
  if r.method = "CONNECT" then
    if r.path = "/view" ∨ r.path = "/edit" ∨ r.path = "/save" ∨ r.path = "/delete" then
      (httpRedirect w r (r.path ++ "/") 301, fs)
    else
      muxDispatch w r fs
  else if cleanPath r.path = "/view" ∨ cleanPath r.path = "/edit"
      ∨ cleanPath r.path = "/save" ∨ cleanPath r.path = "/delete" then
    (httpRedirect w r (cleanPath r.path ++ "/") 301, fs)
  else if cleanPath r.path ≠ r.path then
    (httpRedirect w r (cleanPath r.path) 301, fs)
  else
    muxDispatch w r fs

/-- A valid title: what the route pattern's capture group accepts. -/
def validTitle (t : String) : Bool := titleOk t.data

/-- Formalisation of the spec's route pattern, written from the spec's
words (`/(edit|save|view|delete)/<title>` with `<title>` one or more
alphanumeric characters), to be compared with the program's
`validPathMatch`. -/
def matchesValidPath (path : String) : Prop :=
  ∃ op title : String,
    (op = "edit" ∨ op = "save" ∨ op = "view" ∨ op = "delete")
    ∧ title ≠ "" ∧ (∀ c ∈ title.data, isAlnumGo c = true)
    ∧ path = "/" ++ op ++ "/" ++ title

/-! ## Concrete fixtures (used to instantiate theorems on closed inputs) -/

/-- The empty store: no page files, removal always permitted. -/
def fsEmpty : Store := ⟨fun _ => none, fun _ => false⟩

/-- Store holding one page file `data/T.txt` with body "B". -/
def fsT : Store := ⟨fun f => if f = "data/T.txt" then some "B" else none, fun _ => false⟩

/-- Same single-page store, but the OS denies every removal. -/
def fsTDenied : Store := ⟨fun f => if f = "data/T.txt" then some "B" else none, fun _ => true⟩

/-- A bodiless GET request to a path. -/
def reqGet (p : String) : Request := ⟨"GET", p, [], []⟩

/-- A bodiless POST request to a path. -/
def reqPost (p : String) : Request := ⟨"POST", p, [], []⟩

/-- A POST request carrying a `body` form field. -/
def reqPostBody (p b : String) : Request := ⟨"POST", p, [], [("body", b)]⟩

end Wiki

namespace Wiki

/-! ## Helper lemmas -/

theorem data_filename_inj {t u : String}
    (h : "data/" ++ t ++ ".txt" = "data/" ++ u ++ ".txt") : t = u := by
  have hd : "data/".data ++ (t.data ++ ".txt".data)
      = "data/".data ++ (u.data ++ ".txt".data) := by
    simpa [String.data_append, List.append_assoc] using congrArg String.data h
  have h2 := List.append_cancel_right (List.append_cancel_left hd)
  cases t; cases u; exact congrArg String.mk h2

theorem writeFile_self (fs : Files) (n c : String) : writeFile fs n c n = some c := by
  simp [writeFile]

theorem writeFile_other (fs : Files) (n c f : String) (h : f ≠ n) :
    writeFile fs n c f = fs f := by
  simp [writeFile, h]

theorem httpError_fresh (msg : String) (code : Nat) :
    httpError w0 msg code
      = { wroteHeader := true, status := code, sentLocation := none,
          hdrLocation := none, hdrCT := true, body := msg ++ "\n" } := by
  simp [httpError, writeBody, writeHeader, w0]

theorem httpRedirect_fresh (r : Request) (url : String) (code : Nat) :
    (httpRedirect w0 r url code).status = code
    ∧ (httpRedirect w0 r url code).sentLocation = some url := by
  by_cases hm : r.method = "GET" <;>
    simp [httpRedirect, writeHeader, writeBody, w0, hm]

theorem osRemove_ok_files {st : Store} {name : String} {st2 : Store}
    (h : osRemove st name = .ok st2) :
    st2.files = fun f => if f = name then none else st.files f := by
  unfold osRemove at h
  split at h
  · cases h
  · split at h
    · cases h
    · cases h; rfl

theorem loadPage_of_eq {fs : Files} {title body : String}
    (h : fs ("data/" ++ title ++ ".txt") = some body) :
    loadPage fs title = some { Title := title, Body := body, DispBody := expandLinks body } := by
  simp [loadPage, h]

theorem loadPage_of_none {fs : Files} {title : String}
    (h : fs ("data/" ++ title ++ ".txt") = none) :
    loadPage fs title = none := by
  simp [loadPage, h]

/-! ## Routing lemmas -/

theorem string_data_ext {s t : String} (h : s.data = t.data) : s = t := by
  cases s; cases t; exact congrArg String.mk h

theorem titleOk_iff (t : List Char) :
    titleOk t = true ↔ (t ≠ [] ∧ ∀ c ∈ t, isAlnumGo c = true) := by
  simp [titleOk, List.all_eq_true, List.isEmpty_iff]

theorem orElse_isSome {α : Type} (a : Option α) (f : Unit → Option α) :
    (a.orElse f).isSome = (a.isSome || (f ()).isSome) := by
  cases a <;> rfl

theorem routeCapture_some {op path : String} {m : String × String}
    (h : routeCapture op path = some m) :
    m.1 = op ∧ titleOk m.2.data = true ∧ path = "/" ++ op ++ "/" ++ m.2 := by
  unfold routeCapture at h
  cases hs : stripSlashOp op path.data with
  | none => rw [hs] at h; cases h
  | some t =>
    rw [hs] at h
    replace h : (if titleOk t = true then some (op, (⟨t⟩ : String)) else none) = some m := h
    by_cases htk : titleOk t = true
    · rw [if_pos htk] at h
      cases h
      unfold stripSlashOp at hs
      by_cases hpre : ("/" ++ op ++ "/").data.isPrefixOf path.data = true
      · rw [if_pos (by simpa using hpre)] at hs
        obtain ⟨rest, hrest⟩ := List.isPrefixOf_iff_prefix.1 hpre
        cases hs
        refine ⟨rfl, ?_, ?_⟩
        · show titleOk (path.data.drop ("/" ++ op ++ "/").data.length) = true
          exact htk
        · apply string_data_ext
          rw [String.data_append]
          show path.data
            = ("/" ++ op ++ "/").data ++ path.data.drop ("/" ++ op ++ "/").data.length
          conv in path.data => rw [← hrest]
          rw [← hrest, List.drop_left]
      · rw [if_neg (by simpa using hpre)] at hs
        cases hs
    · rw [if_neg htk] at h
      cases h

theorem routeCapture_self (op title : String) (htk : titleOk title.data = true) :
    routeCapture op ("/" ++ op ++ "/" ++ title) = some (op, title) := by
  unfold routeCapture stripSlashOp
  have hdata : ("/" ++ op ++ "/" ++ title).data
      = ("/" ++ op ++ "/").data ++ title.data := by
    rw [String.data_append]
  rw [hdata]
  have hpre : ("/" ++ op ++ "/").data.isPrefixOf
      (("/" ++ op ++ "/").data ++ title.data) = true :=
    List.isPrefixOf_iff_prefix.2 (List.prefix_append _ _)
  rw [if_pos (by simpa using hpre), List.drop_left]
  show (if titleOk title.data = true then some (op, (⟨title.data⟩ : String)) else none)
    = some (op, title)
  rw [if_pos htk]

theorem validPathMatch_isSome (path : String) :
    (validPathMatch path).isSome
      = ((routeCapture "edit" path).isSome || ((routeCapture "save" path).isSome
        || ((routeCapture "view" path).isSome || (routeCapture "delete" path).isSome))) := by
  unfold validPathMatch
  rw [orElse_isSome, orElse_isSome, orElse_isSome]

theorem validPathMatch_isSome_iff (path : String) :
    (validPathMatch path).isSome = true ↔ matchesValidPath path := by
  constructor
  · intro h
    rw [validPathMatch_isSome] at h
    have main : ∀ op : String,
        (op = "edit" ∨ op = "save" ∨ op = "view" ∨ op = "delete") →
        (routeCapture op path).isSome = true → matchesValidPath path := by
      intro op hop hm
      obtain ⟨m, hm⟩ := Option.isSome_iff_exists.1 hm
      obtain ⟨h1, h2, h3⟩ := routeCapture_some hm
      refine ⟨op, m.2, hop, ?_, ((titleOk_iff _).1 h2).2, h3⟩
      intro hcon
      exact ((titleOk_iff _).1 h2).1 (congrArg String.data hcon)
    simp only [Bool.or_eq_true] at h
    rcases h with h | h | h | h
    · exact main "edit" (Or.inl rfl) h
    · exact main "save" (Or.inr (Or.inl rfl)) h
    · exact main "view" (Or.inr (Or.inr (Or.inl rfl))) h
    · exact main "delete" (Or.inr (Or.inr (Or.inr rfl))) h
  · rintro ⟨op, title, hop, hne, halnum, rfl⟩
    have hdata : title.data ≠ [] := by
      intro hd
      apply hne
      cases title
      cases hd
      rfl
    have htk : titleOk title.data = true := (titleOk_iff _).2 ⟨hdata, halnum⟩
    have hcap := routeCapture_self op title htk
    rw [validPathMatch_isSome]
    rcases hop with rfl | rfl | rfl | rfl <;> rw [hcap] <;> simp

theorem makeHandler_none (fn : Handler) (r : Request) (fs : Store)
    (h : validPathMatch r.path = none) :
    makeHandler fn w0 r fs = (httpNotFound w0 r, fs) := by
  unfold makeHandler
  rw [h]

theorem makeHandler_some (fn : Handler) (r : Request) (fs : Store) (m : String × String)
    (h : validPathMatch r.path = some m) :
    makeHandler fn w0 r fs = fn w0 r fs m.2 := by
  unfold makeHandler
  rw [h]

theorem muxDispatch_prefix_view (r : Request) (fs : Store) (rest : List Char)
    (hp : r.path.data = "/view/".data ++ rest) :
    muxDispatch w0 r fs = makeHandler viewHandler w0 r fs := by
  have hv : hasPrefixGo r.path "/view/" = true := by
    unfold hasPrefixGo
    rw [hp]
    exact List.isPrefixOf_iff_prefix.2 (List.prefix_append _ _)
  unfold muxDispatch
  rw [if_pos hv]

theorem muxDispatch_prefix_edit (r : Request) (fs : Store) (rest : List Char)
    (hp : r.path.data = "/edit/".data ++ rest) :
    muxDispatch w0 r fs = makeHandler editHandler w0 r fs := by
  have hnv : hasPrefixGo r.path "/view/" = false := by
    unfold hasPrefixGo
    rw [hp]
    rfl
  have he : hasPrefixGo r.path "/edit/" = true := by
    unfold hasPrefixGo
    rw [hp]
    exact List.isPrefixOf_iff_prefix.2 (List.prefix_append _ _)
  unfold muxDispatch
  rw [if_neg (by simp [hnv]), if_pos he]

theorem muxDispatch_prefix_save (r : Request) (fs : Store) (rest : List Char)
    (hp : r.path.data = "/save/".data ++ rest) :
    muxDispatch w0 r fs = makeHandler saveHandler w0 r fs := by
  have hnv : hasPrefixGo r.path "/view/" = false := by
    unfold hasPrefixGo
    rw [hp]
    rfl
  have hne : hasPrefixGo r.path "/edit/" = false := by
    unfold hasPrefixGo
    rw [hp]
    rfl
  have hs : hasPrefixGo r.path "/save/" = true := by
    unfold hasPrefixGo
    rw [hp]
    exact List.isPrefixOf_iff_prefix.2 (List.prefix_append _ _)
  unfold muxDispatch
  rw [if_neg (by simp [hnv]), if_neg (by simp [hne]), if_pos hs]

theorem muxDispatch_prefix_delete (r : Request) (fs : Store) (rest : List Char)
    (hp : r.path.data = "/delete/".data ++ rest) :
    muxDispatch w0 r fs = makeHandler deleteHandler w0 r fs := by
  have hnv : hasPrefixGo r.path "/view/" = false := by
    unfold hasPrefixGo
    rw [hp]
    rfl
  have hne : hasPrefixGo r.path "/edit/" = false := by
    unfold hasPrefixGo
    rw [hp]
    rfl
  have hns : hasPrefixGo r.path "/save/" = false := by
    unfold hasPrefixGo
    rw [hp]
    rfl
  have hd : hasPrefixGo r.path "/delete/" = true := by
    unfold hasPrefixGo
    rw [hp]
    exact List.isPrefixOf_iff_prefix.2 (List.prefix_append _ _)
  unfold muxDispatch
  rw [if_neg (by simp [hnv]), if_neg (by simp [hne]), if_neg (by simp [hns]), if_pos hd]

theorem muxDispatch_root (r : Request) (fs : Store)
    (hnp : ∀ (pre : String) (rest : List Char),
      pre ∈ (["/view/", "/edit/", "/save/", "/delete/"] : List String) →
      r.path.data ≠ pre.data ++ rest)
    (hroot : hasPrefixGo r.path "/" = true) :
    muxDispatch w0 r fs = (redirFrontPage w0 r, fs) := by
  have hgen : ∀ pre : String,
      pre ∈ (["/view/", "/edit/", "/save/", "/delete/"] : List String) →
      ¬ hasPrefixGo r.path pre = true := by
    intro pre hmem hc
    obtain ⟨rest, hrest⟩ := List.isPrefixOf_iff_prefix.1 hc
    exact hnp pre rest hmem hrest.symm
  unfold muxDispatch
  rw [if_neg (hgen "/view/" (by simp)), if_neg (hgen "/edit/" (by simp)),
    if_neg (hgen "/save/" (by simp)), if_neg (hgen "/delete/" (by simp)), if_pos hroot]

theorem hasPrefixGo_root (x : List Char) : hasPrefixGo ⟨'/' :: x⟩ "/" = true := by
  simp [hasPrefixGo, List.isPrefixOf]

theorem cleanPath_rooted (p : String) : hasPrefixGo (cleanPath p) "/" = true := by
  unfold cleanPath
  split
  · rfl
  · split
    · exact hasPrefixGo_root _
    · exact hasPrefixGo_root _

theorem serveMux_of_canonical (r : Request) (fs : Store)
    (hc : cleanPath r.path = r.path) :
    serveMux w0 r fs
      = if r.path = "/view" ∨ r.path = "/edit" ∨ r.path = "/save" ∨ r.path = "/delete" then
          (httpRedirect w0 r (r.path ++ "/") 301, fs)
        else muxDispatch w0 r fs := by
  unfold serveMux
  by_cases hm : r.method = "CONNECT"
  · rw [if_pos hm]
  · rw [if_neg hm, hc]
    by_cases hb : r.path = "/view" ∨ r.path = "/edit" ∨ r.path = "/save"
      ∨ r.path = "/delete"
    · rw [if_pos hb, if_pos hb]
    · rw [if_neg hb, if_neg hb, if_neg (by simp)]

theorem serveMux_prefix_view (r : Request) (fs : Store) (rest : List Char)
    (hc : cleanPath r.path = r.path) (hp : r.path.data = "/view/".data ++ rest) :
    serveMux w0 r fs = makeHandler viewHandler w0 r fs := by
  have hbare : ¬(r.path = "/view" ∨ r.path = "/edit" ∨ r.path = "/save"
      ∨ r.path = "/delete") := by
    rintro (h | h | h | h) <;> rw [h] at hp <;>
      exact absurd (show _ = '/' :: 'v' :: 'i' :: 'e' :: 'w' :: '/' :: rest from hp)
        (by simp)
  rw [serveMux_of_canonical r fs hc, if_neg hbare]
  exact muxDispatch_prefix_view r fs rest hp

theorem serveMux_prefix_edit (r : Request) (fs : Store) (rest : List Char)
    (hc : cleanPath r.path = r.path) (hp : r.path.data = "/edit/".data ++ rest) :
    serveMux w0 r fs = makeHandler editHandler w0 r fs := by
  have hbare : ¬(r.path = "/view" ∨ r.path = "/edit" ∨ r.path = "/save"
      ∨ r.path = "/delete") := by
    rintro (h | h | h | h) <;> rw [h] at hp <;>
      exact absurd (show _ = '/' :: 'e' :: 'd' :: 'i' :: 't' :: '/' :: rest from hp)
        (by simp)
  rw [serveMux_of_canonical r fs hc, if_neg hbare]
  exact muxDispatch_prefix_edit r fs rest hp

theorem serveMux_prefix_save (r : Request) (fs : Store) (rest : List Char)
    (hc : cleanPath r.path = r.path) (hp : r.path.data = "/save/".data ++ rest) :
    serveMux w0 r fs = makeHandler saveHandler w0 r fs := by
  have hbare : ¬(r.path = "/view" ∨ r.path = "/edit" ∨ r.path = "/save"
      ∨ r.path = "/delete") := by
    rintro (h | h | h | h) <;> rw [h] at hp <;>
      exact absurd (show _ = '/' :: 's' :: 'a' :: 'v' :: 'e' :: '/' :: rest from hp)
        (by simp)
  rw [serveMux_of_canonical r fs hc, if_neg hbare]
  exact muxDispatch_prefix_save r fs rest hp

theorem serveMux_prefix_delete (r : Request) (fs : Store) (rest : List Char)
    (hc : cleanPath r.path = r.path) (hp : r.path.data = "/delete/".data ++ rest) :
    serveMux w0 r fs = makeHandler deleteHandler w0 r fs := by
  have hbare : ¬(r.path = "/view" ∨ r.path = "/edit" ∨ r.path = "/save"
      ∨ r.path = "/delete") := by
    rintro (h | h | h | h) <;> rw [h] at hp <;>
      exact absurd (show _ = '/' :: 'd' :: 'e' :: 'l' :: 'e' :: 't' :: 'e' :: '/' :: rest
        from hp) (by simp)
  rw [serveMux_of_canonical r fs hc, if_neg hbare]
  exact muxDispatch_prefix_delete r fs rest hp

theorem serveMux_bare (r : Request) (fs : Store)
    (h : r.path = "/view" ∨ r.path = "/edit" ∨ r.path = "/save" ∨ r.path = "/delete") :
    serveMux w0 r fs = (httpRedirect w0 r (r.path ++ "/") 301, fs) := by
  have hc : cleanPath r.path = r.path := by
    rcases h with h | h | h | h <;> rw [h] <;> decide
  rw [serveMux_of_canonical r fs hc, if_pos h]

theorem serveMux_root (r : Request) (fs : Store)
    (hc : cleanPath r.path = r.path)
    (hnp : ∀ (pre : String) (rest : List Char),
      pre ∈ (["/view/", "/edit/", "/save/", "/delete/"] : List String) →
      r.path.data ≠ pre.data ++ rest)
    (hbare : r.path ∉ (["/view", "/edit", "/save", "/delete"] : List String)) :
    serveMux w0 r fs = (redirFrontPage w0 r, fs) := by
  have hb : ¬(r.path = "/view" ∨ r.path = "/edit" ∨ r.path = "/save"
      ∨ r.path = "/delete") := by
    rintro (h | h | h | h) <;> exact hbare (by simp [h])
  have hroot : hasPrefixGo r.path "/" = true := hc ▸ cleanPath_rooted r.path
  rw [serveMux_of_canonical r fs hc, if_neg hb]
  exact muxDispatch_root r fs hnp hroot

theorem serveMux_clean_redirect (r : Request) (fs : Store)
    (hm : r.method ≠ "CONNECT")
    (hb : ¬(cleanPath r.path = "/view" ∨ cleanPath r.path = "/edit"
      ∨ cleanPath r.path = "/save" ∨ cleanPath r.path = "/delete"))
    (hne : cleanPath r.path ≠ r.path) :
    serveMux w0 r fs = (httpRedirect w0 r (cleanPath r.path) 301, fs) := by
  unfold serveMux
  rw [if_neg hm, if_neg hb, if_pos hne]

theorem serveMux_clean_bare (r : Request) (fs : Store)
    (hm : r.method ≠ "CONNECT")
    (hb : cleanPath r.path = "/view" ∨ cleanPath r.path = "/edit"
      ∨ cleanPath r.path = "/save" ∨ cleanPath r.path = "/delete") :
    serveMux w0 r fs = (httpRedirect w0 r (cleanPath r.path ++ "/") 301, fs) := by
  unfold serveMux
  rw [if_neg hm, if_pos hb]

theorem serveMux_snd_or (r : Request) (fs : Store) :
    (serveMux w0 r fs).2 = fs ∨ serveMux w0 r fs = muxDispatch w0 r fs := by
  unfold serveMux
  split
  · split
    · exact Or.inl rfl
    · exact Or.inr rfl
  · split
    · exact Or.inl rfl
    · split
      · exact Or.inl rfl
      · exact Or.inr rfl

/-! ## Claim theorems -/

/-- C1: for every valid (alphanumeric) title and every body, `save` writes
the body verbatim to `data/<title>.txt`, and `load` of that title then
returns a Page whose body is exactly what was saved. -/
theorem save_load_roundtrip (fs : Files) (title body : String)
    (hv : validTitle title = true) :
    Page.save { Title := title, Body := body } fs ("data/" ++ title ++ ".txt") = some body
    ∧ ∃ p, loadPage (Page.save { Title := title, Body := body } fs) title = some p
        ∧ p.Body = body := by
  refine ⟨writeFile_self .., ?_⟩
  exact ⟨_, loadPage_of_eq (writeFile_self ..), rfl⟩

/-- Witness for C1: concrete round-trip on an empty store. -/
theorem save_load_roundtrip_witness :
    validTitle "FrontPage" = true
    ∧ (Page.save { Title := "FrontPage", Body := "Hello [Other]" } (fun _ => none)
        ("data/" ++ "FrontPage" ++ ".txt") = some "Hello [Other]"
      ∧ ∃ p, loadPage (Page.save { Title := "FrontPage", Body := "Hello [Other]" }
            (fun _ => none)) "FrontPage" = some p ∧ p.Body = "Hello [Other]") :=
  ⟨by decide, save_load_roundtrip (fun _ => none) "FrontPage" "Hello [Other]" (by decide)⟩

/-- C5: a view of a title whose file is absent responds with a 302 redirect
to `/edit/<title>`; nothing is rendered and the store is untouched. -/
theorem view_missing_redirects (fs : Store) (r : Request) (title : String)
    (h : fs.files ("data/" ++ title ++ ".txt") = none) :
    viewHandler w0 r fs title = (httpRedirect w0 r ("/edit/" ++ title) 302, fs)
    ∧ (viewHandler w0 r fs title).1.status = 302
    ∧ (viewHandler w0 r fs title).1.sentLocation = some ("/edit/" ++ title)
    ∧ (viewHandler w0 r fs title).2 = fs := by
  have h1 : viewHandler w0 r fs title = (httpRedirect w0 r ("/edit/" ++ title) 302, fs) := by
    simp [viewHandler, loadPage_of_none h]
  refine ⟨h1, ?_, ?_, by rw [h1]⟩
  · rw [h1]; exact (httpRedirect_fresh r _ 302).1
  · rw [h1]; exact (httpRedirect_fresh r _ 302).2

/-- Witness for C5: GET /view/Missing on an empty store. -/
theorem view_missing_redirects_witness :
    viewHandler w0 (reqGet "/view/Missing") fsEmpty "Missing"
      = (httpRedirect w0 (reqGet "/view/Missing") ("/edit/" ++ "Missing") 302, fsEmpty)
    ∧ (viewHandler w0 (reqGet "/view/Missing") fsEmpty "Missing").1.status = 302
    ∧ (viewHandler w0 (reqGet "/view/Missing") fsEmpty "Missing").1.sentLocation
        = some ("/edit/" ++ "Missing")
    ∧ (viewHandler w0 (reqGet "/view/Missing") fsEmpty "Missing").2 = fsEmpty :=
  view_missing_redirects fsEmpty (reqGet "/view/Missing") "Missing" rfl

/-- C6: a non-POST request to /save/<title> responds 400 and leaves the
store completely unchanged; a POST persists the submitted body field to
`data/<title>.txt`. -/
theorem save_requires_post (fs : Store) (r : Request) (title : String) :
    (r.method ≠ "POST" →
      saveHandler w0 r fs title = (httpError w0 "400 - Bad method type" 400, fs)
      ∧ (saveHandler w0 r fs title).1.status = 400
      ∧ (saveHandler w0 r fs title).2 = fs)
    ∧ (r.method = "POST" →
      (saveHandler w0 r fs title).2.files
        = writeFile fs.files ("data/" ++ title ++ ".txt") (getValue r.form "body")
      ∧ (saveHandler w0 r fs title).2.removeDenied = fs.removeDenied) := by
  constructor
  · intro hm
    have h1 : saveHandler w0 r fs title = (httpError w0 "400 - Bad method type" 400, fs) := by
      simp [saveHandler, hm]
    refine ⟨h1, ?_, by rw [h1]⟩
    rw [h1, httpError_fresh]
  · intro hm
    constructor <;> simp [saveHandler, hm, Page.save]

/-- Witness for C6: a GET to /save/T is refused and writes nothing; a POST
with body field persists it. -/
theorem save_requires_post_witness :
    (saveHandler w0 (reqGet "/save/T") fsEmpty "T"
        = (httpError w0 "400 - Bad method type" 400, fsEmpty)
      ∧ (saveHandler w0 (reqGet "/save/T") fsEmpty "T").1.status = 400
      ∧ (saveHandler w0 (reqGet "/save/T") fsEmpty "T").2 = fsEmpty)
    ∧ ((saveHandler w0 (reqPostBody "/save/T" "B") fsEmpty "T").2.files
        = writeFile fsEmpty.files ("data/" ++ "T" ++ ".txt")
            (getValue (reqPostBody "/save/T" "B").form "body")
      ∧ (saveHandler w0 (reqPostBody "/save/T" "B") fsEmpty "T").2.removeDenied
        = fsEmpty.removeDenied) :=
  ⟨(save_requires_post fsEmpty (reqGet "/save/T") "T").1 (by decide),
   (save_requires_post fsEmpty (reqPostBody "/save/T" "B") "T").2 rfl⟩

/-- C8: a POST /delete/<title> for an absent page file responds 404 and the
store is untouched (removal is never attempted, whatever the removal
environment says). -/
theorem delete_missing_404 (fs : Store) (r : Request) (title : String)
    (hpost : r.method = "POST")
    (hmiss : fs.files ("data/" ++ title ++ ".txt") = none) :
    deleteHandler w0 r fs title = (httpError w0 "404 - Page not found" 404, fs)
    ∧ (deleteHandler w0 r fs title).1.status = 404
    ∧ (deleteHandler w0 r fs title).2 = fs := by
  have h1 : deleteHandler w0 r fs title = (httpError w0 "404 - Page not found" 404, fs) := by
    simp [deleteHandler, hpost, loadPage_of_none hmiss]
  refine ⟨h1, ?_, by rw [h1]⟩
  rw [h1, httpError_fresh]

/-- Witness for C8: POST /delete/Missing on an empty store. -/
theorem delete_missing_404_witness :
    deleteHandler w0 (reqPost "/delete/Missing") fsEmpty "Missing"
      = (httpError w0 "404 - Page not found" 404, fsEmpty)
    ∧ (deleteHandler w0 (reqPost "/delete/Missing") fsEmpty "Missing").1.status = 404
    ∧ (deleteHandler w0 (reqPost "/delete/Missing") fsEmpty "Missing").2 = fsEmpty :=
  delete_missing_404 fsEmpty (reqPost "/delete/Missing") "Missing" rfl rfl

end Wiki

namespace Wiki

/-- C4: on POST /delete of an existing page, a removal failure leaves a 500
response carrying the error text and no Location/302 ever goes out on the
wire (the redirect call after the un-returned error is a superfluous header
write, which `net/http` ignores); the 302 redirect to
`/view/FrontPage?from_delete=true` is sent exactly when removal succeeds. -/
theorem delete_failure_behavior (fs : Store) (r : Request) (title b : String)
    (hpost : r.method = "POST")
    (hex : fs.files ("data/" ++ title ++ ".txt") = some b) :
    (fs.removeDenied ("data/" ++ title ++ ".txt") = true →
      (deleteHandler w0 r fs title).1.status = 500
      ∧ (deleteHandler w0 r fs title).1.body
          = "remove " ++ ("data/" ++ title ++ ".txt") ++ ": permission denied" ++ "\n"
      ∧ (deleteHandler w0 r fs title).1.sentLocation = none
      ∧ (deleteHandler w0 r fs title).2 = fs)
    ∧ (fs.removeDenied ("data/" ++ title ++ ".txt") = false →
      (deleteHandler w0 r fs title).1.status = 302
      ∧ (deleteHandler w0 r fs title).1.sentLocation
          = some "/view/FrontPage?from_delete=true") := by
  constructor
  · intro hden
    have h1 : deleteHandler w0 r fs title
        = (httpRedirect (httpError w0 ("remove " ++ ("data/" ++ title ++ ".txt")
              ++ ": permission denied") 500) r "/view/FrontPage?from_delete=true" 302, fs) := by
      simp [deleteHandler, hpost, loadPage_of_eq hex, osRemove, hex, hden]
    rw [h1, httpError_fresh]
    simp [httpRedirect, writeHeader, writeBody, hpost]
  · intro hden
    have h1 : deleteHandler w0 r fs title
        = (httpRedirect w0 r "/view/FrontPage?from_delete=true" 302,
           { fs with files := fun f => if f = "data/" ++ title ++ ".txt" then none
                else fs.files f }) := by
      simp [deleteHandler, hpost, loadPage_of_eq hex, osRemove, hex, hden]
    rw [h1]
    exact httpRedirect_fresh r _ 302

/-- Witness for C4: POST /delete/T, once against a store whose removal is
denied, once against one where it succeeds. -/
theorem delete_failure_behavior_witness :
    ((deleteHandler w0 (reqPost "/delete/T") fsTDenied "T").1.status = 500
      ∧ (deleteHandler w0 (reqPost "/delete/T") fsTDenied "T").1.body
          = "remove " ++ ("data/" ++ "T" ++ ".txt") ++ ": permission denied" ++ "\n"
      ∧ (deleteHandler w0 (reqPost "/delete/T") fsTDenied "T").1.sentLocation = none
      ∧ (deleteHandler w0 (reqPost "/delete/T") fsTDenied "T").2 = fsTDenied)
    ∧ ((deleteHandler w0 (reqPost "/delete/T") fsT "T").1.status = 302
      ∧ (deleteHandler w0 (reqPost "/delete/T") fsT "T").1.sentLocation
          = some "/view/FrontPage?from_delete=true") :=
  ⟨(delete_failure_behavior fsTDenied (reqPost "/delete/T") "T" "B" rfl (by decide)).1 rfl,
   (delete_failure_behavior fsT (reqPost "/delete/T") "T" "B" rfl (by decide)).2 rfl⟩

/-- C7: a successful POST delete of a valid title followed by a load of the
same title yields NotFound — no Page is returned. -/
theorem delete_then_load_not_found (fs : Store) (r : Request) (title b : String)
    (hpost : r.method = "POST") (hv : validTitle title = true)
    (hex : fs.files ("data/" ++ title ++ ".txt") = some b)
    (hok : fs.removeDenied ("data/" ++ title ++ ".txt") = false) :
    loadPage (deleteHandler w0 r fs title).2.files title = none := by
  have h1 : (deleteHandler w0 r fs title).2
      = { fs with files := fun f => if f = "data/" ++ title ++ ".txt" then none
            else fs.files f } := by
    simp [deleteHandler, hpost, loadPage_of_eq hex, osRemove, hex, hok]
  rw [h1]
  exact loadPage_of_none (by simp)

/-- Witness for C7: delete of the one existing page empties its slot. -/
theorem delete_then_load_not_found_witness :
    loadPage (deleteHandler w0 (reqPost "/delete/T") fsT "T").2.files "T" = none :=
  delete_then_load_not_found fsT (reqPost "/delete/T") "T" "B" rfl (by decide)
    (by decide) (by decide)

/-- C9: saving a page titled t and deleting t (through the delete handler)
each leave every other title's load result unchanged. -/
theorem save_delete_frame (fs : Files) (st : Store) (r : Request)
    (t u body : String) (hvt : validTitle t = true) (hvu : validTitle u = true)
    (hne : t ≠ u) :
    loadPage (Page.save { Title := t, Body := body } fs) u = loadPage fs u
    ∧ loadPage (deleteHandler w0 r st t).2.files u = loadPage st.files u := by
  have hkey : ("data/" ++ u ++ ".txt") ≠ ("data/" ++ t ++ ".txt") := by
    intro hc
    exact hne (data_filename_inj hc).symm
  constructor
  · have hw : Page.save { Title := t, Body := body } fs ("data/" ++ u ++ ".txt")
        = fs ("data/" ++ u ++ ".txt") := writeFile_other _ _ _ _ hkey
    unfold loadPage
    rw [hw]
  · unfold deleteHandler
    split
    · rfl
    · cases hl : loadPage st.files t with
      | none => simp
      | some p =>
        simp only []
        cases hrem : osRemove st ("data/" ++ t ++ ".txt") with
        | error e => simp
        | ok st2 =>
          have hfu : st2.files ("data/" ++ u ++ ".txt") = st.files ("data/" ++ u ++ ".txt") := by
            rw [osRemove_ok_files hrem]
            simp [hkey]
          simp only []
          unfold loadPage
          rw [hfu]

/-- Witness for C9: saving and deleting title "T" do not disturb loads of
title "U". -/
theorem save_delete_frame_witness :
    loadPage (Page.save { Title := "T", Body := "B2" } fsT.files) "U"
      = loadPage fsT.files "U"
    ∧ loadPage (deleteHandler w0 (reqPost "/delete/T") fsT "T").2.files "U"
      = loadPage fsT.files "U" :=
  save_delete_frame fsT.files fsT (reqPost "/delete/T") "T" "U" "B2"
    (by decide) (by decide) (by decide)

/-- C10: the view and edit handlers never modify the page store — through
the router included: a request whose path sits under /view/ or /edit/ leaves
the store exactly as it was. -/
theorem view_edit_frame :
    (∀ (fs : Store) (r : Request) (title : String), (viewHandler w0 r fs title).2 = fs)
    ∧ (∀ (fs : Store) (r : Request) (title : String), (editHandler w0 r fs title).2 = fs)
    ∧ (∀ (r : Request) (fs : Store) (rest : List Char),
        r.path.data = "/view/".data ++ rest ∨ r.path.data = "/edit/".data ++ rest →
        (serveMux w0 r fs).2 = fs) := by
  have hview : ∀ (fs : Store) (r : Request) (title : String),
      (viewHandler w0 r fs title).2 = fs := by
    intro fs r title
    unfold viewHandler
    cases hl : loadPage fs.files title <;> simp
  have hedit : ∀ (fs : Store) (r : Request) (title : String),
      (editHandler w0 r fs title).2 = fs := by
    intro fs r title
    unfold editHandler
    cases hl : loadPage fs.files title <;> simp
  refine ⟨hview, hedit, ?_⟩
  intro r fs rest hdisj
  have hmk : ∀ fn : Handler, (∀ fs' r' title, (fn w0 r' fs' title).2 = fs') →
      (makeHandler fn w0 r fs).2 = fs := by
    intro fn hfn
    unfold makeHandler
    cases hv : validPathMatch r.path with
    | none => rfl
    | some m => exact hfn fs r m.2
  rcases serveMux_snd_or r fs with hsnd | hmux
  · exact hsnd
  · rw [hmux]
    rcases hdisj with hp | hp
    · rw [muxDispatch_prefix_view r fs rest hp]
      exact hmk viewHandler hview
    · rw [muxDispatch_prefix_edit r fs rest hp]
      exact hmk editHandler hedit

/-- Witness for C10: concrete GET /view and GET /edit requests leave the
single-page store unchanged. -/
theorem view_edit_frame_witness :
    (viewHandler w0 (reqGet "/view/T") fsT "T").2 = fsT
    ∧ (editHandler w0 (reqGet "/edit/Missing") fsT "Missing").2 = fsT
    ∧ (serveMux w0 (reqGet "/view/T") fsT).2 = fsT :=
  ⟨view_edit_frame.1 fsT (reqGet "/view/T") "T",
   view_edit_frame.2.1 fsT (reqGet "/edit/Missing") "Missing",
   view_edit_frame.2.2 (reqGet "/view/T") fsT "T".data (Or.inl rfl)⟩

end Wiki

namespace Wiki

/-! ## Link-expansion lemmas -/

theorem takeWhile_append_stops (p : Char → Bool) (a : List Char) (c : Char) (b : List Char)
    (ha : ∀ x ∈ a, p x = true) (hc : p c = false) :
    (a ++ c :: b).takeWhile p = a := by
  induction a with
  | nil => simp [List.takeWhile_cons, hc]
  | cons x xs ih =>
    simp only [List.cons_append, List.takeWhile_cons, ha x (by simp)]
    simp [ih (fun y hy => ha y (by simp [hy]))]

theorem dropWhile_append_stops (p : Char → Bool) (a : List Char) (c : Char) (b : List Char)
    (ha : ∀ x ∈ a, p x = true) (hc : p c = false) :
    (a ++ c :: b).dropWhile p = c :: b := by
  induction a with
  | nil => simp [List.dropWhile_cons, hc]
  | cons x xs ih =>
    simp only [List.cons_append, List.dropWhile_cons, ha x (by simp)]
    simp [ih (fun y hy => ha y (by simp [hy]))]

theorem expandLinksAux_nil : expandLinksAux [] = [] := by simp [expandLinksAux]

theorem expandLinksAux_cons_ne (c : Char) (rest : List Char) (hc : ¬ c = '[') :
    expandLinksAux (c :: rest) = c :: expandLinksAux rest := by
  rw [expandLinksAux]
  simp [hc]

theorem expandLinksAux_open (name post : List Char)
    (hname : ∀ x ∈ name, isAlnumGo x = true) :
    expandLinksAux ('[' :: (name ++ ']' :: post))
      = anchorChars name ++ expandLinksAux post := by
  have hd : (name ++ ']' :: post).dropWhile isAlnumGo = ']' :: post :=
    dropWhile_append_stops _ _ _ _ hname (by decide)
  have ht : (name ++ ']' :: post).takeWhile isAlnumGo = name :=
    takeWhile_append_stops _ _ _ _ hname (by decide)
  rw [expandLinksAux]
  split
  · split
    · rename_i tail heq
      rw [hd] at heq
      cases heq
      rw [ht]
    · rename_i heq
      rw [hd] at heq
      cases heq
    · rename_i hne heq
      rw [hd] at heq
      cases heq
      exact absurd rfl hne
  · rename_i heq
    exact absurd rfl heq

theorem expandLinksAux_no_bracket (s : List Char) (h : '[' ∉ s) :
    expandLinksAux s = s := by
  induction s with
  | nil => exact expandLinksAux_nil
  | cons c rest ih =>
    have hc : ¬ c = '[' := fun hce => h (hce ▸ List.mem_cons_self c rest)
    rw [expandLinksAux_cons_ne c rest hc, ih (fun hm => h (List.mem_cons_of_mem c hm))]

theorem expandLinksAux_token (pre name post : List Char)
    (hpre : '[' ∉ pre) (hname : ∀ x ∈ name, isAlnumGo x = true) :
    expandLinksAux (pre ++ '[' :: (name ++ ']' :: post))
      = pre ++ (anchorChars name ++ expandLinksAux post) := by
  induction pre with
  | nil => simpa using expandLinksAux_open name post hname
  | cons c rest ih =>
    have hc : ¬ c = '[' := fun hce => hpre (hce ▸ List.mem_cons_self c rest)
    rw [List.cons_append, expandLinksAux_cons_ne c _ hc,
      ih (fun hm => hpre (List.mem_cons_of_mem c hm))]
    simp

/-- C3: link expansion rewrites each bracket-delimited alphanumeric token
`[name]` into a link to `/view/name` with `name` as visible text, leaves
text outside such tokens unmodified, and in particular sends `[Foo]` to its
anchor and `[]` to an anchor to `/view/` with empty text. -/
theorem link_expansion (pre name post : List Char)
    (hpre : '[' ∉ pre) (hname : ∀ x ∈ name, isAlnumGo x = true) :
    expandLinksAux (pre ++ '[' :: (name ++ ']' :: post))
      = pre ++ (anchorChars name ++ expandLinksAux post)
    ∧ (∀ s : List Char, '[' ∉ s → expandLinksAux s = s)
    ∧ expandLinks "[Foo]" = "<a href=\x22/view/Foo\x22>Foo</a>"
    ∧ expandLinks "[]" = "<a href=\x22/view/\x22></a>" := by
  refine ⟨expandLinksAux_token pre name post hpre hname, expandLinksAux_no_bracket, ?_, ?_⟩
  · show (⟨expandLinksAux "[Foo]".data⟩ : String) = _
    have h : "[Foo]".data = [] ++ '[' :: ("Foo".data ++ ']' :: []) := rfl
    rw [h, expandLinksAux_token [] "Foo".data [] (by simp) (by decide), expandLinksAux_nil]
    rfl
  · show (⟨expandLinksAux "[]".data⟩ : String) = _
    have h : "[]".data = [] ++ '[' :: ([] ++ ']' :: []) := rfl
    rw [h, expandLinksAux_token [] [] [] (by simp) (by simp), expandLinksAux_nil]
    rfl

/-- Witness for C3: the token [Foo] inside surrounding text. -/
theorem link_expansion_witness :
    expandLinksAux ("See ".data ++ '[' :: ("Foo".data ++ ']' :: " now".data))
      = "See ".data ++ (anchorChars "Foo".data ++ expandLinksAux " now".data)
    ∧ (∀ s : List Char, '[' ∉ s → expandLinksAux s = s)
    ∧ expandLinks "[Foo]" = "<a href=\x22/view/Foo\x22>Foo</a>"
    ∧ expandLinks "[]" = "<a href=\x22/view/\x22></a>" :=
  link_expansion "See ".data "Foo".data " now".data (by decide) (by decide)

end Wiki

namespace Wiki

/-- C2 counterexample: the path /foo matches no route pattern, yet the
response is the root handler's 307 redirect, not a 404. -/
theorem route_nonmatching_not_404_counterexample :
    validPathMatch "/foo" = none
    ∧ (serveMux w0 (reqGet "/foo") fsEmpty).1.status = 307
    ∧ (serveMux w0 (reqGet "/foo") fsEmpty).1.status ≠ 404 := by
  refine ⟨by decide, by decide, by decide⟩

/-- C2 (amended): a handler is dispatched exactly for paths matching
`^/(edit|save|view|delete)/([a-zA-Z0-9]+)$`; a canonical path (one the
mux's path-cleaning leaves unchanged) under one of the four route prefixes
that fails the pattern gets a 404 with no further processing; a canonical
path under none of the four prefixes never reaches the pattern check: the
root handler answers it with a 307 redirect to /view/FrontPage (or, for a
bare /view, /edit, /save or /delete, the mux adds a trailing slash via
301); and a non-canonical path of a non-CONNECT request is answered by the
mux's 301 redirect to the cleaned path (with the trailing slash appended
when the cleaned path is a bare route prefix), reaching no handler. -/
theorem route_dispatch_amended :
    (∀ path : String, (validPathMatch path).isSome = true ↔ matchesValidPath path)
    ∧ (∀ (fn : Handler) (r : Request) (fs : Store), validPathMatch r.path = none →
        makeHandler fn w0 r fs = (httpNotFound w0 r, fs)
        ∧ (httpNotFound w0 r).status = 404)
    ∧ (∀ (fn : Handler) (r : Request) (fs : Store) (m : String × String),
        validPathMatch r.path = some m → makeHandler fn w0 r fs = fn w0 r fs m.2)
    ∧ (∀ (r : Request) (fs : Store) (rest : List Char), cleanPath r.path = r.path →
        (r.path.data = "/view/".data ++ rest →
          serveMux w0 r fs = makeHandler viewHandler w0 r fs)
        ∧ (r.path.data = "/edit/".data ++ rest →
          serveMux w0 r fs = makeHandler editHandler w0 r fs)
        ∧ (r.path.data = "/save/".data ++ rest →
          serveMux w0 r fs = makeHandler saveHandler w0 r fs)
        ∧ (r.path.data = "/delete/".data ++ rest →
          serveMux w0 r fs = makeHandler deleteHandler w0 r fs))
    ∧ (∀ (r : Request) (fs : Store), cleanPath r.path = r.path →
        (∀ (pre : String) (rest : List Char),
          pre ∈ (["/view/", "/edit/", "/save/", "/delete/"] : List String) →
          r.path.data ≠ pre.data ++ rest) →
        r.path ∉ (["/view", "/edit", "/save", "/delete"] : List String) →
        serveMux w0 r fs = (redirFrontPage w0 r, fs)
        ∧ (redirFrontPage w0 r).status = 307)
    ∧ (∀ (r : Request) (fs : Store),
        (r.path = "/view" ∨ r.path = "/edit" ∨ r.path = "/save" ∨ r.path = "/delete") →
        serveMux w0 r fs = (httpRedirect w0 r (r.path ++ "/") 301, fs))
    ∧ (∀ (r : Request) (fs : Store), r.method ≠ "CONNECT" →
        cleanPath r.path ≠ r.path →
        ¬(cleanPath r.path = "/view" ∨ cleanPath r.path = "/edit"
          ∨ cleanPath r.path = "/save" ∨ cleanPath r.path = "/delete") →
        serveMux w0 r fs = (httpRedirect w0 r (cleanPath r.path) 301, fs))
    ∧ (∀ (r : Request) (fs : Store), r.method ≠ "CONNECT" →
        (cleanPath r.path = "/view" ∨ cleanPath r.path = "/edit"
          ∨ cleanPath r.path = "/save" ∨ cleanPath r.path = "/delete") →
        serveMux w0 r fs = (httpRedirect w0 r (cleanPath r.path ++ "/") 301, fs)) := by
  refine ⟨validPathMatch_isSome_iff, ?_, ?_, ?_, ?_, serveMux_bare, ?_, serveMux_clean_bare⟩
  · intro fn r fs h
    refine ⟨makeHandler_none fn r fs h, ?_⟩
    show (httpError w0 "404 page not found" 404).status = 404
    rw [httpError_fresh]
  · exact makeHandler_some
  · intro r fs rest hc
    exact ⟨serveMux_prefix_view r fs rest hc, serveMux_prefix_edit r fs rest hc,
      serveMux_prefix_save r fs rest hc, serveMux_prefix_delete r fs rest hc⟩
  · intro r fs hc hnp hbare
    refine ⟨serveMux_root r fs hc hnp hbare, ?_⟩
    show (httpRedirect w0 r "/view/FrontPage" 307).status = 307
    exact (httpRedirect_fresh r _ 307).1
  · intro r fs hm hne hb
    exact serveMux_clean_redirect r fs hm hb hne

/-- Witness for C2 (amended) on concrete requests: a malformed title under
/view/ is 404'd, the canonical /view/Foo dispatches to the view handler,
the canonical /xyz is answered by the root redirect, bare /view gets the
trailing-slash redirect, the non-canonical /view//x gets the 301 to its
cleaned path /view/x, and the non-canonical /view/x/.. (which cleans to the
bare /view) gets the 301 to /view/. -/
theorem route_dispatch_amended_witness :
    ((validPathMatch "/view/Foo").isSome = true ↔ matchesValidPath "/view/Foo")
    ∧ (makeHandler viewHandler w0 (reqGet "/view/a b") fsEmpty
        = (httpNotFound w0 (reqGet "/view/a b"), fsEmpty)
      ∧ (httpNotFound w0 (reqGet "/view/a b")).status = 404)
    ∧ (serveMux w0 (reqGet "/view/Foo") fsEmpty
        = makeHandler viewHandler w0 (reqGet "/view/Foo") fsEmpty)
    ∧ (serveMux w0 (reqGet "/xyz") fsEmpty = (redirFrontPage w0 (reqGet "/xyz"), fsEmpty)
      ∧ (redirFrontPage w0 (reqGet "/xyz")).status = 307)
    ∧ (serveMux w0 (reqGet "/view") fsEmpty
        = (httpRedirect w0 (reqGet "/view") ((reqGet "/view").path ++ "/") 301, fsEmpty))
    ∧ (serveMux w0 (reqGet "/view//x") fsEmpty
        = (httpRedirect w0 (reqGet "/view//x") (cleanPath (reqGet "/view//x").path) 301,
           fsEmpty))
    ∧ (serveMux w0 (reqGet "/view/x/..") fsEmpty
        = (httpRedirect w0 (reqGet "/view/x/..")
            (cleanPath (reqGet "/view/x/..").path ++ "/") 301, fsEmpty)) :=
  ⟨route_dispatch_amended.1 "/view/Foo",
   route_dispatch_amended.2.1 viewHandler (reqGet "/view/a b") fsEmpty (by decide),
   (route_dispatch_amended.2.2.2.1 (reqGet "/view/Foo") fsEmpty "Foo".data (by decide)).1
     rfl,
   route_dispatch_amended.2.2.2.2.1 (reqGet "/xyz") fsEmpty (by decide)
     (by
       intro pre rest hmem hc
       rcases (by simpa using hmem : pre = "/view/" ∨ pre = "/edit/" ∨ pre = "/save/"
         ∨ pre = "/delete/") with rfl | rfl | rfl | rfl
       · exact absurd (show ['/', 'x', 'y', 'z']
           = '/' :: 'v' :: 'i' :: 'e' :: 'w' :: '/' :: rest from hc) (by simp)
       · exact absurd (show ['/', 'x', 'y', 'z']
           = '/' :: 'e' :: 'd' :: 'i' :: 't' :: '/' :: rest from hc) (by simp)
       · exact absurd (show ['/', 'x', 'y', 'z']
           = '/' :: 's' :: 'a' :: 'v' :: 'e' :: '/' :: rest from hc) (by simp)
       · exact absurd (show ['/', 'x', 'y', 'z']
           = '/' :: 'd' :: 'e' :: 'l' :: 'e' :: 't' :: 'e' :: '/' :: rest from hc)
           (by simp))
     (by decide),
   route_dispatch_amended.2.2.2.2.2.1 (reqGet "/view") fsEmpty (Or.inl rfl),
   route_dispatch_amended.2.2.2.2.2.2.1 (reqGet "/view//x") fsEmpty (by decide)
     (by decide) (by decide),
   route_dispatch_amended.2.2.2.2.2.2.2 (reqGet "/view/x/..") fsEmpty (by decide)
     (by decide)⟩

end Wiki
